import Mathlib

/-!
Shallow embedding of the hbbft consensus engine of this repository
(crates/ethcore/src/engines/hbbft).  Pure data and the state-passing
skeleton of the stateful Rust code are translated into executable Lean
definitions; external collaborators (chain client, contracts, the hbbft
crate's HoneyBadger instance, crypto) are modelled as explicit
environment records whose fields stand for the calls the code makes.
-/

/-- Bytes are modelled as lists of naturals (each intended < 256). -/
abbrev Bytes := List Nat

/-- Node identifier (a 64-byte public key in the source, `NodeId(pub Public)`);
modelled abstractly as a natural number. -/
abbrev NodeId := Nat

/-- A consensus message of the hbbft crate (`honey_badger::Message<NodeId>`).
The embedding keeps only what the engine inspects: its epoch (`Epoched` trait)
and an opaque payload. -/
structure HbMessage where
  epoch : Nat
  payload : Nat
deriving DecidableEq, Repr

/-- Model of the external `honey_badger::HoneyBadger` instance.  The engine
only uses: `epoch()`, `skip_to_epoch`, `handle_message`, `has_input`,
`received_proposals`, `propose`.  Message handling is modelled as recording
the fed messages in order; the epoch is not advanced by the model. -/
structure HoneyBadger where
  epoch : Nat
  received : List (NodeId × HbMessage)
  has_input : Bool
  received_proposals : Nat
deriving DecidableEq, Repr

/-- Steps returned by the HoneyBadger instance are opaque to the claims
modelled here. -/
abbrev HoneyBadgerStep := Unit

/-- Model of `NetworkInfo<NodeId>`: the engine treats it as an opaque value
to clone and hand around. -/
structure NetworkInfo where
  our_id : NodeId
  num_faulty : Nat
deriving DecidableEq, Repr

/-- Model of `PublicKeySet`: only `public_key()` is used by the engine. -/
structure PublicKeySet where
  public_key : Nat
deriving DecidableEq, Repr

/-- Result of `initialize_synckeygen`: readiness flag, the outcome of
`generate()` (`none` models `Err`), and the outcome of
`synckeygen_to_network_info`. -/
structure Synckeygen where
  is_ready : Bool
  generate : Option (PublicKeySet × Option Nat)
  netinfo : Option NetworkInfo
deriving DecidableEq, Repr

/-- The environment of the hbbft state machine: chain client reads and
contract calls, all pinned the way the source pins them.  `none` models the
error/`None` outcome of the corresponding call. -/
structure Env where
  /-- Outcome of `client.block_number(BlockId::Latest)` for `Option`-taking
  call sites. -/
  latestBlock : Nat
  /-- Outcome of `get_posdao_epoch(client, BlockId::Number(b))`, `low_u64`. -/
  posdaoEpoch : Nat → Option Nat
  /-- Outcome of `get_posdao_epoch_start(client, BlockId::Number(b))`. -/
  posdaoEpochStart : Nat → Option Nat
  /-- Outcome of `initialize_synckeygen(client, signer, Number(b), Current)`. -/
  synckeygen : Nat → Option Synckeygen
  /-- Outcome of `PublicKey::verify(signature, hash)` of the hbbft crypto. -/
  verify : Nat → Bytes → Nat → Bool
  /-- The RLP-serialised forms of `client.queued_transactions()`. -/
  queuedTransactions : List Bytes
  /-- Current UNIX time in seconds (`unix_now_secs`). -/
  nowSecs : Nat
  /-- The bytes sampled by `thread_rng` for a fresh contribution. -/
  randomBytes : List Nat

/-- Contribution (contribution.rs): per-block proposal of one node. -/
structure Contribution where
  transactions : List Bytes
  timestamp : Nat
  random_data : List Nat
deriving DecidableEq, Repr

/-- Number of random bytes per epoch, `RANDOM_BYTES_PER_EPOCH = 4 * 20`. -/
def RANDOM_BYTES_PER_EPOCH : Nat := 4 * 20

/-- Contribution::new: serialises the queued transactions, stamps the local
time and samples `RANDOM_BYTES_PER_EPOCH` bytes (both drawn from the
environment model). -/
def Contribution.new (env : Env) : Contribution :=
  { transactions := env.queuedTransactions
    timestamp := env.nowSecs
    random_data := env.randomBytes }

/-- HbbftState (hbbft_state.rs, struct HbbftState).  The
`future_messages_cache : BTreeMap<u64, Vec<(NodeId, HbMessage)>>` is modelled
as a total function to lists, the empty list standing for an absent entry
(the source treats a missing and an empty entry identically). -/
structure HbbftState where
  network_info : Option NetworkInfo
  honey_badger : Option HoneyBadger
  public_master_key : Option Nat
  current_posdao_epoch : Nat
  future_messages_cache : Nat → List (NodeId × HbMessage)

/-- HbbftState::new. -/
def HbbftState.new : HbbftState :=
  { network_info := none
    honey_badger := none
    public_master_key := none
    current_posdao_epoch := 0
    future_messages_cache := fun _ => [] }

/-- HbbftState::new_honey_badger: builds a fresh instance from a network
info (`HoneyBadgerBuilder::build`, starting at epoch 0 with no input). -/
def HbbftState.new_honey_badger (_ni : NetworkInfo) : HoneyBadger :=
  { epoch := 0, received := [], has_input := false, received_proposals := 0 }

/-- Model of `honey_badger.handle_message(&sender, msg)`: the message is
recorded in order; the model returns a step unconditionally (the `Err` case
of the external crate is not modelled). -/
def HoneyBadger.handle (hb : HoneyBadger) (sender : NodeId) (msg : HbMessage) :
    HoneyBadger × HoneyBadgerStep :=
  ({ hb with received := hb.received ++ [(sender, msg)] }, ())

/-- Model of `honey_badger.skip_to_epoch(e)`: advances the instance's epoch
if it is behind. -/
def HoneyBadger.skip_to_epoch (hb : HoneyBadger) (e : Nat) : HoneyBadger :=
  { hb with epoch := max hb.epoch e }

/-- Model of `honey_badger.propose(&contribution, rng)`: marks the local
input as given and returns a step. -/
def HoneyBadger.propose (hb : HoneyBadger) (_c : Contribution) :
    HoneyBadger × HoneyBadgerStep :=
  ({ hb with has_input := true }, ())

/-- HbbftState::update_honeybadger (hbbft_state.rs lines 53-96).  Returns the
new state and the `Option<()>` result.  The `assert!(synckeygen.is_ready())`
panic of the source is modelled as returning `none` with the state unchanged
(no claim exercises that branch). -/
def HbbftState.update_honeybadger (env : Env) (s : HbbftState) (block : Nat)
    (force : Bool) : HbbftState × Option Unit :=
  match env.posdaoEpoch block with
  | none => (s, none)
  | some target_posdao_epoch =>
    if !force && s.current_posdao_epoch == target_posdao_epoch then
      (s, some ())
    else
      match env.posdaoEpochStart block with
      | none => (s, none)
      | some posdao_epoch_start =>
        match env.synckeygen posdao_epoch_start with
        | none => (s, none)
        | some skg =>
          if !skg.is_ready then (s, none)
          else
            match skg.generate with
            | none => (s, none)
            | some (pks, sks) =>
              let s1 : HbbftState :=
                { s with
                  public_master_key := some pks.public_key
                  network_info := none
                  honey_badger := none
                  current_posdao_epoch := target_posdao_epoch }
              match sks with
              | none => (s1, some ())
              | some _ =>
                match skg.netinfo with
                | none => (s1, none)
                | some ni =>
                  ({ s1 with
                      network_info := some ni
                      honey_badger := some (HbbftState.new_honey_badger ni) },
                    some ())

/-- HbbftState::skip_to_current_epoch (hbbft_state.rs lines 155-182). -/
def HbbftState.skip_to_current_epoch (env : Env) (s : HbbftState) :
    HbbftState × Option Unit :=
  let latest_block_number := env.latestBlock
  let s1 := (s.update_honeybadger env latest_block_number false).1
  match s1.honey_badger with
  | none => (s1, none)
  | some hb =>
    ({ s1 with honey_badger := some (hb.skip_to_epoch (latest_block_number + 1)) },
      some ())

/-- HbbftState::process_message (hbbft_state.rs lines 184-217). -/
def HbbftState.process_message (env : Env) (s : HbbftState) (sender_id : NodeId)
    (message : HbMessage) :
    HbbftState × Option (HoneyBadgerStep × NetworkInfo) :=
  match s.skip_to_current_epoch env with
  | (s1, none) => (s1, none)
  | (s1, some _) =>
    match s1.honey_badger with
    | none => (s1, none)
    | some hb =>
      if hb.epoch < message.epoch then
        ({ s1 with
            future_messages_cache := fun e =>
              if e = message.epoch then
                s1.future_messages_cache e ++ [(sender_id, message)]
              else s1.future_messages_cache e },
          none)
      else
        match s1.network_info with
        | none => (s1, none)
        | some ni =>
          let (hb1, step) := hb.handle sender_id message
          ({ s1 with honey_badger := some hb1 }, some (step, ni))

/-- Feeds a list of cached messages into the HoneyBadger instance in order,
collecting the steps (the `map`/`collect` of replay_cached_messages). -/
def HoneyBadger.handle_all (hb : HoneyBadger) :
    List (NodeId × HbMessage) → HoneyBadger × List HoneyBadgerStep
  | [] => (hb, [])
  | (sender, m) :: rest =>
    let (hb1, step) := hb.handle sender m
    let (hb2, steps) := hb1.handle_all rest
    (hb2, step :: steps)

/-- HbbftState::replay_cached_messages (hbbft_state.rs lines 99-153). -/
def HbbftState.replay_cached_messages (env : Env) (s : HbbftState) :
    HbbftState × Option (List HoneyBadgerStep × NetworkInfo) :=
  match s.honey_badger with
  | none => (s, none)
  | some hb =>
    if hb.epoch = 0 then (s, none)
    else
      let parent_block := hb.epoch - 1
      match env.posdaoEpoch parent_block with
      | none => (s, none)
      | some epoch =>
        if epoch ≠ s.current_posdao_epoch then (s, none)
        else
          let messages := s.future_messages_cache hb.epoch
          if messages.isEmpty then (s, none)
          else
            match s.network_info with
            | none => (s, none)
            | some network_info =>
              let (hb1, all_steps) := hb.handle_all messages
              ({ s with
                  honey_badger := some hb1
                  future_messages_cache := fun e =>
                    if hb.epoch + 1 ≤ e then s.future_messages_cache e else [] },
                some (all_steps, network_info))

/-- HbbftState::try_send_contribution (hbbft_state.rs lines 234-285). -/
def HbbftState.try_send_contribution (env : Env) (s : HbbftState) :
    HbbftState × Option (HoneyBadgerStep × NetworkInfo) :=
  match s.skip_to_current_epoch env with
  | (s1, none) => (s1, none)
  | (s1, some _) =>
    match s1.honey_badger with
    | none => (s1, none)
    | some hb =>
      if hb.has_input then (s1, none)
      else
        match env.posdaoEpoch (hb.epoch - 1) with
        | none => (s1, none)
        | some posdao_epoch =>
          if s1.current_posdao_epoch ≠ posdao_epoch then (s1, none)
          else
            match s1.network_info with
            | none => (s1, none)
            | some network_info =>
              let input_contribution := Contribution.new env
              let (hb1, step) := hb.propose input_contribution
              ({ s1 with honey_badger := some hb1 }, some (step, network_info))

/-- HbbftState::contribute_if_contribution_threshold_reached
(hbbft_state.rs lines 219-232). -/
def HbbftState.contribute_if_contribution_threshold_reached (env : Env)
    (s : HbbftState) : HbbftState × Option (HoneyBadgerStep × NetworkInfo) :=
  match s.honey_badger, s.network_info with
  | some hb, some ni =>
    if ni.num_faulty < hb.received_proposals then s.try_send_contribution env
    else (s, none)
  | _, _ => (s, none)

/-- Block header model: number, bare hash (hash with the seal cleared) and
the list of seal fields. -/
structure Header where
  number : Nat
  bare_hash : Nat
  -- named `seal` in the source; `seal` is reserved in Lean
  seals : List Bytes
deriving DecidableEq, Repr

/-- HbbftState::verify_seal (hbbft_state.rs lines 287-357).  Note that the
reconstruction branch passes no signer to `initialize_synckeygen`; only the
public-key set of the result is consumed, which the environment model
returns identically with or without a signer. -/
def HbbftState.verify_seal (env : Env) (s : HbbftState) (signature : Bytes)
    (header : Header) : HbbftState × Bool :=
  let s1 := (s.skip_to_current_epoch env).1
  let parent_block_nr := header.number - 1
  match env.posdaoEpoch parent_block_nr with
  | none => (s1, false)
  | some target_posdao_epoch =>
    if s1.current_posdao_epoch ≠ target_posdao_epoch then
      match env.posdaoEpochStart parent_block_nr with
      | none => (s1, false)
      | some posdao_epoch_start =>
        match env.synckeygen posdao_epoch_start with
        | none => (s1, false)
        | some skg =>
          if !skg.is_ready then (s1, false)
          else
            match skg.generate with
            | none => (s1, false)
            | some (pks, _) =>
              (s1, env.verify pks.public_key signature header.bare_hash)
    else
      match s1.public_master_key with
      | some key => (s1, env.verify key signature header.bare_hash)
      | none => (s1, false)

/-- Big-endian interpretation of a byte slice, `U256::from(&bytes[0..32])`. -/
def u256_of_be (b : Bytes) : Nat := b.foldl (fun acc x => acc * 256 + x) 0

/-- One step of the XOR fold over the batch contributions deriving the
per-epoch random number (hbbft_engine.rs lines 280-291): a contribution with
at least 32 bytes of random data XORs its first 32 bytes into the
accumulator, any other contribution leaves the accumulator unchanged. -/
def random_number_step (acc : Nat) (c : Contribution) : Nat :=
  if 32 ≤ c.random_data.length then Nat.xor (u256_of_be (c.random_data.take 32)) acc
  else acc

/-- The XOR-derived per-epoch random number of a batch
(`batch.contributions.iter().fold(U256::zero(), ...)`). -/
def batch_random_number (contributions : List (NodeId × Contribution)) : Nat :=
  contributions.foldl (fun acc p => random_number_step acc p.2) 0

/-- Itertools `unique`, keeping the first occurrence of each element. -/
def unique_from [DecidableEq α] (seen : List α) : List α → List α
  | [] => []
  | a :: l => if a ∈ seen then unique_from seen l else a :: unique_from (a :: seen) l

/-- Deduplication as used on decoded batch transactions (`.unique()`). -/
def itertools_unique [DecidableEq α] (l : List α) : List α := unique_from [] l

/-- Decoded (`TypedTransaction::decode`) transactions, opaque to the model. -/
abbrev Txn := Nat

/-- Signature-checked (`SignedTransaction::new`) transactions. -/
abbrev SignedTxn := Nat

/-- The decode/de-duplicate/validate pipeline over the batch contributions
(hbbft_engine.rs lines 249-263): flatten all contributions' transactions,
drop undecodable ones, keep first occurrences, drop invalidly signed ones. -/
def batch_txns (decode : Bytes → Option Txn) (validate : Txn → Option SignedTxn)
    (contributions : List (NodeId × Contribution)) : List SignedTxn :=
  (itertools_unique
      ((contributions.flatMap (fun p => p.2.transactions)).filterMap decode)).filterMap
    validate

/-- Sorted insertion on naturals, for the ascending timestamp sort. -/
def insert_sorted (x : Nat) : List Nat → List Nat
  | [] => [x]
  | y :: l => if x ≤ y then x :: y :: l else y :: insert_sorted x l

/-- Ascending stable sort on naturals (itertools `sorted`). -/
def sort_nat (l : List Nat) : List Nat := l.foldr insert_sorted []

/-- The block timestamp chosen from a batch: element at index `len / 2` of
the ascending-sorted contribution timestamps (hbbft_engine.rs lines
265-278); `none` models the error path of an empty batch. -/
def batch_timestamp (contributions : List (NodeId × Contribution)) : Option Nat :=
  let timestamps := sort_nat (contributions.map (fun p => p.2.timestamp))
  timestamps[timestamps.length / 2]?

/-- Fixed byte length of a combined threshold signature of the underlying
scheme (a BLS12-381 signature in compressed form). -/
def SIGNATURE_BYTES : Nat := 96

/-- Modelled from the spec: the sealing module (sealing.rs, with the
`RlpSig` wrapper decoded by verify_block_family) is declared in mod.rs but
missing from src/.  The spec defines the seal encoding as one RLP item
containing the fixed-length combined threshold-signature bytes, so the
decoder accepts exactly the canonical RLP encoding of a byte string of
`SIGNATURE_BYTES` bytes (long form: 0xb8, length byte, payload) and fails on
anything else. -/
def rlp_decode_seal (b : Bytes) : Option Bytes :=
  match b with
  | 184 :: len :: rest =>
    if len = SIGNATURE_BYTES && rest.length = SIGNATURE_BYTES then some rest
    else none
  | _ => none

/-- Error outcomes of verify_block_family that the claims distinguish: the
`BlockError::InvalidSeal` paths versus the rlp `DecoderError` propagated by
the `?` on `rlp::decode`. -/
inductive FamilyError where
  | invalidSeal
  | decoderError
deriving DecidableEq, Repr

/-- HoneyBadgerBFT::verify_block_family (hbbft_engine.rs lines 743-768).
The `client_arc()` presence and the `expect` on the latest block number are
part of the environment model (`env.latestBlock` is total). -/
def HoneyBadgerBFT.verify_block_family (env : Env) (s : HbbftState)
    (header : Header) : HbbftState × Except FamilyError Unit :=
  let latest_block_nr := env.latestBlock
  if latest_block_nr + 1 < header.number then (s, .error .invalidSeal)
  else if header.seals.length ≠ 1 then (s, .error .invalidSeal)
  else
    match header.seals.head? with
    | none => (s, .error .invalidSeal)
    | some field =>
      match rlp_decode_seal field with
      | none => (s, .error .decoderError)
      | some sig =>
        match s.verify_seal env sig header with
        | (s1, true) => (s1, .ok ())
        | (s1, false) => (s1, .error .invalidSeal)

/-- Modelled from the spec: sealing.rs is declared in mod.rs but missing
from src/.  Per the spec a per-block sealing session is `Ongoing` while
collecting shares and `Complete` once the combined signature exists;
`signature()` yields the signature exactly of a `Complete` session. -/
inductive Sealing where
  | ongoing (shares : List (NodeId × Bytes))
  | complete (sig : Bytes)
deriving DecidableEq, Repr

/-- Sealing::signature. -/
def Sealing.signature : Sealing → Option Bytes
  | .ongoing _ => none
  | .complete sig => some sig

/-- The `SealingState` values returned by the engine. -/
inductive SealingStateResult where
  | ready
  | notReady
deriving DecidableEq, Repr

/-- HoneyBadgerBFT::sealing_state (hbbft_engine.rs lines 830-850).  The
sealing map (`BTreeMap<BlockNumber, Sealing>`) is modelled as a total
function to `Option Sealing`; `latest` is `none` when no client is
registered or it reports no latest block number, in which case the source
returns `NotReady` without pruning. -/
def HoneyBadgerBFT.sealing_state (latest : Option Nat)
    (sealing : Nat → Option Sealing) :
    (Nat → Option Sealing) × SealingStateResult :=
  match latest with
  | none => (sealing, .notReady)
  | some block_num =>
    let next_block := block_num + 1
    let pruned := fun n => if next_block ≤ n then sealing n else none
    match pruned next_block with
    | some next_seal =>
      if next_seal.signature.isSome then (pruned, .ready)
      else (pruned, .notReady)
    | none => (pruned, .notReady)

/-- Payloads of the contract transactions the engine submits. -/
inductive TxPayload where
  | write_part (upcoming_epoch : Nat) (serialized_part : Bytes)
  | write_acks (upcoming_epoch : Nat) (serialized_acks : List Bytes)
  | announce_availability
deriving DecidableEq, Repr

/-- Model of `TransactionRequest::call(..)` with its builder-set fields;
a field is `none` when the corresponding builder method is not called. -/
structure TransactionRequest where
  payload : TxPayload
  gas : Option Nat
  gas_price : Option Nat
  nonce : Option Nat
deriving DecidableEq, Repr

/-- Error kinds of contract calls (utils/bound_contract `CallError`, plus
the distinctions send_keygen_transactions raises itself). -/
inductive CallError where
  | returnValueInvalid
  | notFullClient
  | contractCallFailed
deriving DecidableEq, Repr

/-- Environment of KeygenTransactionSender::send_keygen_transactions:
outcomes of the client, signer, contract and serialisation calls it makes.
Addresses, DKG parts and acks are opaque tokens. -/
structure KeygenEnv where
  /-- `signer.read().as_ref().map(|s| s.address())`. -/
  signerAddress : Option Nat
  /-- Whether `client.as_full_client()` yields a full client. -/
  fullClient : Bool
  /-- `full_client.is_major_syncing()`. -/
  isMajorSyncing : Bool
  /-- `get_validator_pubkeys(.., Latest, Pending)`: the address-sorted
  pairs of the returned `BTreeMap`; `none` models a `CallError`. -/
  validatorPubkeys : Option (List (Nat × Nat))
  /-- `engine_signer_to_synckeygen(..)`: `none` models `Err`; the inner
  option is this node's `Part`, absent when not a pending validator. -/
  synckeygenCreation : Option (Option Nat)
  /-- `bincode::serialize` of a Part. -/
  serializePart : Nat → Option Bytes
  /-- `get_posdao_epoch(client, BlockId::Latest)`. -/
  posdaoEpochLatest : Option Nat
  /-- `client.block_number(BlockId::Latest)`. -/
  latestBlock : Option Nat
  /-- `has_part_of_address_data(client, address)`. -/
  hasPartOfAddress : Nat → Option Bool
  /-- `has_acks_of_address_data(client, address)`. -/
  hasAcksOfAddress : Nat → Option Bool
  /-- `part_of_address(client, v, ..)`: outer `none` models `Err`, inner
  option the presence of the peer's Part (yielding our Ack token). -/
  partOfAddress : Nat → Option (Option Nat)
  /-- `bincode::serialize` of an Ack. -/
  serializeAck : Nat → Option Bytes
  /-- `full_client.nonce(&address, BlockId::Latest).unwrap()` (the panic on
  a missing nonce is not modelled). -/
  nonce : Nat
  /-- Outcome of `full_client.transact_silently(tx)`. -/
  transactOk : TxPayload → Bool

/-- The two module-scoped counters `LAST_PART_SENT` and `LAST_ACKS_SENT`
(keygen_transactions.rs lines 58-59), both initialised to 0. -/
structure KeygenSenderState where
  last_part_sent : Nat
  last_acks_sent : Nat
deriving DecidableEq, Repr

/-- Initial value of the submission counters (`AtomicU64::new(0)`). -/
def KeygenSenderState.init : KeygenSenderState :=
  { last_part_sent := 0, last_acks_sent := 0 }

/-- Result of a send_keygen_transactions call: updated counters, the
`Result<(), CallError>`, and the transaction requests passed to
`transact_silently`, in submission order. -/
structure KeygenOutcome where
  state : KeygenSenderState
  result : Except CallError Unit
  sent : List TransactionRequest
deriving Repr

/-- The Part submission gate and transaction of send_keygen_transactions
(keygen_transactions.rs lines 104-134). -/
def send_part_phase (env : KeygenEnv) (st : KeygenSenderState) (address : Nat)
    (cur_block : Nat) (upcoming_epoch : Nat) (part_data : Nat) :
    KeygenSenderState × Except CallError Unit × List TransactionRequest :=
  if st.last_part_sent + 10 < cur_block then
    match env.hasPartOfAddress address with
    | none => (st, .error .contractCallFailed, [])
    | some true => (st, .ok (), [])
    | some false =>
      match env.serializePart part_data with
      | none => (st, .error .returnValueInvalid, [])
      | some serialized_part =>
        let gas := serialized_part.length * 750 + 100000
        let part_transaction : TransactionRequest :=
          { payload := .write_part upcoming_epoch serialized_part
            gas := some gas
            gas_price := some 10000000000
            nonce := some env.nonce }
        if env.transactOk part_transaction.payload then
          ({ st with last_part_sent := cur_block }, .ok (), [part_transaction])
        else (st, .error .returnValueInvalid, [part_transaction])
  else (st, .ok (), [])

/-- The Ack-collection loop of send_keygen_transactions (lines 137-157):
reads every pending validator's Part in address order, failing the whole
round if any is unavailable. -/
def collect_acks (env : KeygenEnv) : List Nat → Except CallError (List Nat)
  | [] => .ok []
  | v :: rest =>
    match env.partOfAddress v with
    | none => .error .contractCallFailed
    | some none => .error .returnValueInvalid
    | some (some ack) => (collect_acks env rest).map (fun acks => ack :: acks)

/-- Serialisation of the collected Acks (lines 165-175), failing on the
first `bincode` error. -/
def serialize_acks (env : KeygenEnv) : List Nat → Except CallError (List Bytes)
  | [] => .ok []
  | a :: rest =>
    match env.serializeAck a with
    | none => .error .returnValueInvalid
    | some b => (serialize_acks env rest).map (fun bs => b :: bs)

/-- The Acks submission gate and transaction of send_keygen_transactions
(lines 161-195). -/
def send_acks_phase (env : KeygenEnv) (st : KeygenSenderState) (address : Nat)
    (cur_block : Nat) (upcoming_epoch : Nat) (acks : List Nat) :
    KeygenSenderState × Except CallError Unit × List TransactionRequest :=
  if st.last_acks_sent + 10 < cur_block then
    match env.hasAcksOfAddress address with
    | none => (st, .error .contractCallFailed, [])
    | some true => (st, .ok (), [])
    | some false =>
      match serialize_acks env acks with
      | .error e => (st, .error e, [])
      | .ok serialized_acks =>
        let total_bytes_for_acks :=
          serialized_acks.foldl (fun t b => t + b.length) 0
        let gas := total_bytes_for_acks * 800 + 200000
        let acks_transaction : TransactionRequest :=
          { payload := .write_acks upcoming_epoch serialized_acks
            gas := some gas
            gas_price := some 10000000000
            nonce := some env.nonce }
        if env.transactOk acks_transaction.payload then
          ({ st with last_acks_sent := cur_block }, .ok (), [acks_transaction])
        else (st, .error .returnValueInvalid, [acks_transaction])
  else (st, .ok (), [])

/-- KeygenTransactionSender::send_keygen_transactions
(keygen_transactions.rs lines 53-198). -/
def send_keygen_transactions (env : KeygenEnv) (st : KeygenSenderState) :
    KeygenOutcome :=
  match env.signerAddress with
  | none => ⟨st, .error .returnValueInvalid, []⟩
  | some address =>
    if !env.fullClient then ⟨st, .error .notFullClient, []⟩
    else if env.isMajorSyncing then ⟨st, .ok (), []⟩
    else
      match env.validatorPubkeys with
      | none => ⟨st, .error .contractCallFailed, []⟩
      | some vmap =>
        match env.synckeygenCreation with
        | none => ⟨st, .error .returnValueInvalid, []⟩
        | some none => ⟨st, .error .returnValueInvalid, []⟩
        | some (some part_data) =>
          match env.posdaoEpochLatest with
          | none => ⟨st, .error .contractCallFailed, []⟩
          | some cur_epoch =>
            let upcoming_epoch := cur_epoch + 1
            match env.latestBlock with
            | none => ⟨st, .error .returnValueInvalid, []⟩
            | some cur_block =>
              match send_part_phase env st address cur_block upcoming_epoch
                  part_data with
              | (st1, .error e, sent1) => ⟨st1, .error e, sent1⟩
              | (st1, .ok _, sent1) =>
                match collect_acks env (vmap.map Prod.fst) with
                | .error e => ⟨st1, .error e, sent1⟩
                | .ok acks =>
                  match send_acks_phase env st1 address cur_block
                      upcoming_epoch acks with
                  | (st2, r2, sent2) => ⟨st2, r2, sent1 ++ sent2⟩

/-- Environment of send_tx_announce_availability
(contracts/validator_set.rs lines 95-125). -/
structure AnnounceEnv where
  /-- `full_client.next_nonce(&address)`. -/
  next_nonce : Nat
  /-- `full_client.nonce(address, BlockId::Latest)`. -/
  latest_nonce : Option Nat
  /-- Outcome of `full_client.transact_silently(tx)`. -/
  transactOk : Bool

/-- send_tx_announce_availability (contracts/validator_set.rs lines
95-125): picks the on-chain nonce whenever it is available and differs from
the locally tracked next nonce, then submits the `announce_availability`
call with gas 250 000 (no explicit gas price).  Returns the submitted
request and the propagated `transact_silently` outcome. -/
def send_tx_announce_availability (env : AnnounceEnv) :
    TransactionRequest × Except Unit Unit :=
  let nonce := env.next_nonce
  let nonce :=
    match env.latest_nonce with
    | some new_nonce => if new_nonce ≠ nonce then new_nonce else nonce
    | none => nonce
  let transaction : TransactionRequest :=
    { payload := .announce_availability
      gas := some 250000
      gas_price := none
      nonce := some nonce }
  (transaction, if env.transactOk then .ok () else .error ())

/-- A concrete environment exercising both branches of verify_seal: blocks
at height 2 sit in POSDAO epoch 2, all other heights in epoch 0; the
key-history reconstruction at the recorded start block 1 yields a ready
key-generation whose master key is 9. -/
def envA : Env :=
  { latestBlock := 0
    posdaoEpoch := fun b => if b = 2 then some 2 else some 0
    posdaoEpochStart := fun _ => some 1
    synckeygen := fun _ =>
      some { is_ready := true
             generate := some ({ public_key := 9 }, none)
             netinfo := none }
    verify := fun key _ _ => decide (key = 9)
    queuedTransactions := []
    nowSecs := 0
    randomBytes := [] }

/-- A state in POSDAO epoch 0 holding master key 7 and no instance. -/
def sA : HbbftState :=
  { network_info := none
    honey_badger := none
    public_master_key := some 7
    current_posdao_epoch := 0
    future_messages_cache := fun _ => [] }

/-- A header whose parent (block 0) is in the state's POSDAO epoch. -/
def headerEqA : Header := { number := 1, bare_hash := 5, seals := [] }

/-- A header whose parent (block 2) is in a different POSDAO epoch. -/
def headerNeA : Header := { number := 3, bare_hash := 6, seals := [] }

/-- An environment accepting every signature, with every block in POSDAO
epoch 0. -/
def envB : Env :=
  { latestBlock := 4
    posdaoEpoch := fun _ => some 0
    posdaoEpochStart := fun _ => some 0
    synckeygen := fun _ => none
    verify := fun _ _ _ => true
    queuedTransactions := []
    nowSecs := 0
    randomBytes := [] }

/-- A state in POSDAO epoch 0 with master key 7. -/
def sB : HbbftState :=
  { network_info := none
    honey_badger := none
    public_master_key := some 7
    current_posdao_epoch := 0
    future_messages_cache := fun _ => [] }

/-- A header carrying exactly one seal field that is not decodable RLP. -/
def headerDecodeBad : Header := { number := 1, bare_hash := 0, seals := [[]] }

/-- A header carrying one canonically encoded 96-byte seal. -/
def headerGoodSeal : Header :=
  { number := 1, bare_hash := 0, seals := [184 :: 96 :: List.replicate 96 0] }

/-- A contribution whose random data is 32 bytes long (not the 80 bytes of
`RANDOM_BYTES_PER_EPOCH`) ending in a 1 byte. -/
def c32 : Contribution :=
  { transactions := []
    timestamp := 0
    random_data := List.replicate 31 0 ++ [1] }

/-- A sealing map holding a complete entry for block 6 and a stale ongoing
entry for block 2. -/
def sealingMap4 : Nat → Option Sealing := fun n =>
  if n = 6 then some (Sealing.complete [9])
  else if n = 2 then some (Sealing.ongoing []) else none

/-- An environment whose latest block 4 is in POSDAO epoch 0. -/
def envC : Env :=
  { latestBlock := 4
    posdaoEpoch := fun _ => some 0
    posdaoEpochStart := fun _ => none
    synckeygen := fun _ => none
    verify := fun _ _ _ => false
    queuedTransactions := []
    nowSecs := 0
    randomBytes := [] }

/-- A validator state at POSDAO epoch 0 whose instance sits at hbbft
epoch 5 with an empty message cache. -/
def sC : HbbftState :=
  { network_info := some { our_id := 0, num_faulty := 1 }
    honey_badger := some { epoch := 5, received := [], has_input := false,
                           received_proposals := 0 }
    public_master_key := some 7
    current_posdao_epoch := 0
    future_messages_cache := fun _ => [] }

/-- The instance of `sC` after skipping to the current epoch. -/
def hbC : HoneyBadger :=
  { epoch := 5, received := [], has_input := false, received_proposals := 0 }

/-- A message for hbbft epoch 10, ahead of the instance of `sC`. -/
def msgC : HbMessage := { epoch := 10, payload := 0 }

/-- An environment whose POSDAO epoch at block 4 is 1. -/
def envD : Env :=
  { latestBlock := 4
    posdaoEpoch := fun _ => some 1
    posdaoEpochStart := fun _ => none
    synckeygen := fun _ => none
    verify := fun _ _ _ => false
    queuedTransactions := []
    nowSecs := 0
    randomBytes := [] }

/-- The hbbft instance of `sD`, at epoch 5. -/
def hbD : HoneyBadger :=
  { epoch := 5, received := [], has_input := false, received_proposals := 0 }

/-- A state whose cache still holds a message for the stale epoch 3 while
holding none for the instance's current epoch 5. -/
def sD : HbbftState :=
  { network_info := some { our_id := 0, num_faulty := 1 }
    honey_badger := some hbD
    public_master_key := some 7
    current_posdao_epoch := 1
    future_messages_cache := fun e =>
      if e = 3 then [(7, { epoch := 3, payload := 0 })] else [] }

/-- A state like `sD` whose cache holds one message for the instance's
current epoch 5 and one for the stale epoch 3. -/
def sE : HbbftState :=
  { network_info := some { our_id := 0, num_faulty := 1 }
    honey_badger := some hbD
    public_master_key := some 7
    current_posdao_epoch := 1
    future_messages_cache := fun e =>
      if e = 5 then [(2, { epoch := 5, payload := 1 })]
      else if e = 3 then [(7, { epoch := 3, payload := 0 })] else [] }

/-- An environment reporting POSDAO epoch 5 everywhere. -/
def envF : Env :=
  { latestBlock := 0
    posdaoEpoch := fun _ => some 5
    posdaoEpochStart := fun _ => none
    synckeygen := fun _ => none
    verify := fun _ _ _ => false
    queuedTransactions := []
    nowSecs := 0
    randomBytes := [] }

/-- A state at POSDAO epoch 3. -/
def sF : HbbftState :=
  { network_info := none
    honey_badger := none
    public_master_key := none
    current_posdao_epoch := 3
    future_messages_cache := fun _ => [] }

/-- A keygen environment in which this node is a pending validator with no
Part or Acks on record, on a chain at block 100. -/
def env8 : KeygenEnv :=
  { signerAddress := some 1
    fullClient := true
    isMajorSyncing := false
    validatorPubkeys := some [(1, 11)]
    synckeygenCreation := some (some 0)
    serializePart := fun _ => some [1, 2]
    posdaoEpochLatest := some 0
    latestBlock := some 100
    hasPartOfAddress := fun _ => some false
    hasAcksOfAddress := fun _ => some false
    partOfAddress := fun _ => some (some 3)
    serializeAck := fun _ => some [5, 6, 7]
    nonce := 0
    transactOk := fun _ => true }

/-- The keygen environment of `env8` with the chain still at block 10. -/
def env10 : KeygenEnv :=
  { env8 with latestBlock := some 10 }

theorem foldl_add_length (l : List Bytes) (n : Nat) :
    l.foldl (fun t b => t + b.length) n = n + (l.map List.length).sum := by
  induction l generalizing n with
  | nil => simp
  | cons a l ih => simp [ih, Nat.add_assoc]

theorem send_part_phase_sent_shape (env : KeygenEnv) (st : KeygenSenderState)
    (address cur_block upcoming_epoch part_data : Nat) (tx : TransactionRequest)
    (h : tx ∈ (send_part_phase env st address cur_block upcoming_epoch
      part_data).2.2) :
    ∃ p, tx.payload = TxPayload.write_part upcoming_epoch p ∧
      tx.gas = some (p.length * 750 + 100000) := by
  unfold send_part_phase at h
  split at h <;> [skip; simp at h]
  split at h <;> [simp at h; simp at h; skip]
  split at h <;> [simp at h; skip]
  dsimp only [] at h
  split at h <;> simp at h <;> (subst h; exact ⟨_, rfl, rfl⟩)

theorem send_acks_phase_sent_shape (env : KeygenEnv) (st : KeygenSenderState)
    (address cur_block upcoming_epoch : Nat) (acks : List Nat)
    (tx : TransactionRequest)
    (h : tx ∈ (send_acks_phase env st address cur_block upcoming_epoch
      acks).2.2) :
    ∃ as, tx.payload = TxPayload.write_acks upcoming_epoch as ∧
      tx.gas = some ((as.map List.length).sum * 800 + 200000) := by
  unfold send_acks_phase at h
  split at h <;> [skip; simp at h]
  split at h <;> [simp at h; simp at h; skip]
  split at h <;> [simp at h; skip]
  dsimp only [] at h
  split at h <;> simp at h <;>
    (subst h; exact ⟨_, rfl, by simp [foldl_add_length]⟩)

theorem keygen_sent_from_phase (env : KeygenEnv) (st : KeygenSenderState)
    (tx : TransactionRequest)
    (htx : tx ∈ (send_keygen_transactions env st).sent) :
    (∃ a c u p, tx ∈ (send_part_phase env st a c u p).2.2) ∨
    (∃ st1 a c u as, tx ∈ (send_acks_phase env st1 a c u as).2.2) := by
  unfold send_keygen_transactions at htx
  split at htx
  · simp at htx
  · split at htx
    · simp at htx
    · split at htx
      · simp at htx
      · split at htx
        · simp at htx
        · split at htx
          · simp at htx
          · simp at htx
          · dsimp only [] at htx
            split at htx
            · simp at htx
            · split at htx
              · simp at htx
              · split at htx
                · rename_i st1 e sent1 heq
                  exact Or.inl ⟨_, _, _, _, by rw [heq]; exact htx⟩
                · rename_i st1 u1 sent1 heq
                  split at htx
                  · exact Or.inl ⟨_, _, _, _, by rw [heq]; exact htx⟩
                  · dsimp only [] at htx
                    simp only [List.mem_append] at htx
                    rcases htx with h1 | h2
                    · exact Or.inl ⟨_, _, _, _, by rw [heq]; exact h1⟩
                    · exact Or.inr ⟨_, _, _, _, _, h2⟩

set_option maxRecDepth 4000 in
/-- C8: every write_part transaction submitted by send_keygen_transactions
carries gas exactly (serialized Part length) × 750 + 100 000, and every
write_acks transaction carries gas exactly (total serialized Acks length)
× 800 + 200 000. -/
theorem keygen_tx_gas_laws (env : KeygenEnv) (st : KeygenSenderState)
    (tx : TransactionRequest)
    (htx : tx ∈ (send_keygen_transactions env st).sent) :
    (∀ e p, tx.payload = TxPayload.write_part e p →
      tx.gas = some (p.length * 750 + 100000)) ∧
    (∀ e as, tx.payload = TxPayload.write_acks e as →
      tx.gas = some ((as.map List.length).sum * 800 + 200000)) := by
  rcases keygen_sent_from_phase env st tx htx with
    ⟨a, c, u, p, hmem⟩ | ⟨st1, a, c, u, as, hmem⟩
  · obtain ⟨q, hpay, hgas⟩ := send_part_phase_sent_shape env st a c u p tx hmem
    refine ⟨?_, ?_⟩
    · intro e p2 hp2
      rw [hpay] at hp2
      injection hp2 with h1 h2
      subst h2
      exact hgas
    · intro e as2 hp2
      rw [hpay] at hp2
      simp at hp2
  · obtain ⟨q, hpay, hgas⟩ := send_acks_phase_sent_shape env st1 a c u as tx hmem
    refine ⟨?_, ?_⟩
    · intro e p2 hp2
      rw [hpay] at hp2
      simp at hp2
    · intro e as2 hp2
      rw [hpay] at hp2
      injection hp2 with h1 h2
      subst h2
      exact hgas

theorem keygen_tx_gas_laws_witness :
    ({ payload := TxPayload.write_part 1 [1, 2], gas := some 101500,
       gas_price := some 10000000000, nonce := some 0 } :
      TransactionRequest).gas = some (([1, 2] : Bytes).length * 750 + 100000) := by
  have h := keygen_tx_gas_laws env8 KeygenSenderState.init
    { payload := TxPayload.write_part 1 [1, 2], gas := some 101500,
      gas_price := some 10000000000, nonce := some 0 } (by decide)
  exact h.1 1 [1, 2] rfl

/-- C10: with the submission counters at their initial value 0 and the
gates requiring last_sent + 10 < current block, no write_part or
write_acks transaction is submitted while the latest block number is at
most 10, whatever the key-history contract records. -/
theorem keygen_no_tx_at_low_block (env : KeygenEnv) (b : Nat)
    (hb : env.latestBlock = some b) (hble : b ≤ 10) :
    (send_keygen_transactions env KeygenSenderState.init).sent = [] := by
  have hgate : ¬ (10 < b) := by omega
  have hpart : ∀ a u p, send_part_phase env KeygenSenderState.init a b u p
      = (KeygenSenderState.init, Except.ok (), []) := by
    intro a u p
    unfold send_part_phase
    exact if_neg (by simpa [KeygenSenderState.init] using hgate)
  have hacks : ∀ a u as, send_acks_phase env KeygenSenderState.init a b u as
      = (KeygenSenderState.init, Except.ok (), []) := by
    intro a u as
    unfold send_acks_phase
    exact if_neg (by simpa [KeygenSenderState.init] using hgate)
  unfold send_keygen_transactions
  split
  · rfl
  · split
    · rfl
    · split
      · rfl
      · split
        · rfl
        · split
          · rfl
          · rfl
          · dsimp only []
            split
            · rfl
            · split
              · rfl
              · rename_i cur_block heq
                rw [hb] at heq
                injection heq with hbc
                subst hbc
                rw [hpart]
                dsimp only []
                split
                · rfl
                · simp [hacks]

theorem keygen_no_tx_at_low_block_witness :
    (send_keygen_transactions env10 KeygenSenderState.init).sent = [] :=
  keygen_no_tx_at_low_block env10 10 rfl (by decide)

/-- C9 counterexample: with a local next nonce of 5 and an on-chain nonce
of 3, the announce_availability transaction is submitted with nonce 3, not
with max(5, 3). -/
theorem announce_availability_nonce_counterexample :
    (send_tx_announce_availability
        { next_nonce := 5, latest_nonce := some 3, transactOk := true }).1.nonce
      = some 3 ∧
    (send_tx_announce_availability
        { next_nonce := 5, latest_nonce := some 3, transactOk := true }).1.nonce
      ≠ some (max 5 3) := by
  decide

/-- C9 amended: every announce_availability transaction is submitted with
gas 250 000 and with nonce equal to the latest on-chain nonce whenever it
is available and differs from the next local nonce, and to the next local
nonce otherwise. -/
theorem announce_availability_tx_fields (env : AnnounceEnv) :
    (send_tx_announce_availability env).1.gas = some 250000 ∧
    (env.latest_nonce = none →
      (send_tx_announce_availability env).1.nonce = some env.next_nonce) ∧
    (∀ n, env.latest_nonce = some n → n ≠ env.next_nonce →
      (send_tx_announce_availability env).1.nonce = some n) ∧
    (∀ n, env.latest_nonce = some n → n = env.next_nonce →
      (send_tx_announce_availability env).1.nonce = some env.next_nonce) := by
  refine ⟨rfl, ?_, ?_, ?_⟩
  · intro h
    simp [send_tx_announce_availability, h]
  · intro n h hne
    simp [send_tx_announce_availability, h, hne]
  · intro n h he
    subst he
    simp [send_tx_announce_availability, h]

theorem announce_availability_tx_fields_witness :
    (send_tx_announce_availability
        { next_nonce := 5, latest_nonce := some 3, transactOk := true }).1.gas
      = some 250000 ∧
    (send_tx_announce_availability
        { next_nonce := 5, latest_nonce := some 3, transactOk := true }).1.nonce
      = some 3 := by
  have h := announce_availability_tx_fields
    { next_nonce := 5, latest_nonce := some 3, transactOk := true }
  exact ⟨h.1, h.2.2.1 3 rfl (by decide)⟩

/-- C3 counterexample: a contribution whose random data is 32 bytes long,
hence not of the mandated 80 bytes, still has its randomness XORed into
the per-epoch random number (here flipping the accumulator from 0 to 1)
instead of being excluded. -/
theorem batch_randomness_counterexample :
    c32.random_data.length ≠ RANDOM_BYTES_PER_EPOCH ∧
    random_number_step 0 c32 ≠ 0 ∧
    batch_random_number [(0, c32)] = 1 := by
  decide

/-- C3 amended: a contribution contributes the XOR of the first 32 bytes of
its random data to the per-epoch random number exactly when it carries at
least 32 bytes of random data (not exactly 80); contributions with fewer
than 32 bytes leave the accumulator unchanged; and in either case the
transaction list and the timestamp choice of the batch are unaffected by
the random data. -/
theorem batch_randomness_amended :
    (∀ acc c, c.random_data.length < 32 → random_number_step acc c = acc) ∧
    (∀ acc c, 32 ≤ c.random_data.length →
      random_number_step acc c = Nat.xor (u256_of_be (c.random_data.take 32)) acc) ∧
    (∀ (decode : Bytes → Option Txn) (validate : Txn → Option SignedTxn)
        (l : List (NodeId × Contribution)) (f : NodeId × Contribution → List Nat),
      batch_txns decode validate
          (l.map (fun p => (p.1, { p.2 with random_data := f p })))
        = batch_txns decode validate l ∧
      batch_timestamp (l.map (fun p => (p.1, { p.2 with random_data := f p })))
        = batch_timestamp l) := by
  refine ⟨?_, ?_, ?_⟩
  · intro acc c h
    unfold random_number_step
    rw [if_neg (by omega)]
  · intro acc c h
    unfold random_number_step
    rw [if_pos h]
  · intro decode validate l f
    have htx : (l.map (fun p => (p.1, { p.2 with random_data := f p }))).flatMap
        (fun p => p.2.transactions) = l.flatMap (fun p => p.2.transactions) := by
      induction l with
      | nil => rfl
      | cons a l ih => simp_all
    have hts : (l.map (fun p => (p.1, { p.2 with random_data := f p }))).map
        (fun p => p.2.timestamp) = l.map (fun p => p.2.timestamp) := by
      induction l with
      | nil => rfl
      | cons a l ih => simp_all
    constructor
    · unfold batch_txns
      rw [htx]
    · unfold batch_timestamp
      rw [hts]

theorem batch_randomness_amended_witness :
    random_number_step 0 { transactions := [], timestamp := 0, random_data := [] } = 0 ∧
    random_number_step 0 c32 = Nat.xor (u256_of_be (c32.random_data.take 32)) 0 :=
  ⟨batch_randomness_amended.1 0 _ (by decide),
    batch_randomness_amended.2.1 0 c32 (by decide)⟩

theorem sealing_state_fst (L : Nat) (m : Nat → Option Sealing) :
    (HoneyBadgerBFT.sealing_state (some L) m).1
      = fun n => if L + 1 ≤ n then m n else none := by
  unfold HoneyBadgerBFT.sealing_state
  dsimp only []
  split
  · split <;> rfl
  · rfl

/-- C4: a sealing_state call with a latest imported block prunes exactly the
sealing entries at numbers at most that block, and reports Ready exactly
when the entry for the next block is Complete. -/
theorem sealing_state_prunes_and_ready (L : Nat) (m : Nat → Option Sealing) :
    (∀ n, n ≤ L → (HoneyBadgerBFT.sealing_state (some L) m).1 n = none) ∧
    (∀ n, L + 1 ≤ n → (HoneyBadgerBFT.sealing_state (some L) m).1 n = m n) ∧
    ((HoneyBadgerBFT.sealing_state (some L) m).2 = SealingStateResult.ready ↔
      ∃ sig, m (L + 1) = some (Sealing.complete sig)) := by
  refine ⟨?_, ?_, ?_⟩
  · intro n hn
    rw [sealing_state_fst]
    exact if_neg (by omega)
  · intro n hn
    rw [sealing_state_fst]
    exact if_pos hn
  · unfold HoneyBadgerBFT.sealing_state
    dsimp only []
    rw [show (if L + 1 ≤ L + 1 then m (L + 1) else none) = m (L + 1) from
      if_pos (Nat.le_refl _)]
    cases hm : m (L + 1) with
    | none => simp
    | some s =>
      cases s with
      | ongoing sh => simp [Sealing.signature]
      | complete sig => simp [Sealing.signature]

theorem sealing_state_prunes_and_ready_witness :
    (HoneyBadgerBFT.sealing_state (some 5) sealingMap4).1 2 = none ∧
    (HoneyBadgerBFT.sealing_state (some 5) sealingMap4).1 6 = sealingMap4 6 ∧
    (HoneyBadgerBFT.sealing_state (some 5) sealingMap4).2
      = SealingStateResult.ready := by
  have h := sealing_state_prunes_and_ready 5 sealingMap4
  exact ⟨h.1 2 (by decide), h.2.1 6 (by decide), h.2.2.mpr ⟨[9], rfl⟩⟩

/-- C5: a message for an epoch beyond the instance's current epoch yields no
step, leaves the instance untouched, and appends exactly one (sender,
message) entry to the future-message cache at the message's epoch. -/
theorem process_message_future_epoch (env : Env) (s : HbbftState)
    (sender : NodeId) (msg : HbMessage) (s1 : HbbftState) (hb : HoneyBadger)
    (hskip : s.skip_to_current_epoch env = (s1, some ()))
    (hhb : s1.honey_badger = some hb)
    (hfut : hb.epoch < msg.epoch) :
    (s.process_message env sender msg).2 = none ∧
    (s.process_message env sender msg).1.future_messages_cache msg.epoch
      = s1.future_messages_cache msg.epoch ++ [(sender, msg)] ∧
    (∀ e, e ≠ msg.epoch →
      (s.process_message env sender msg).1.future_messages_cache e
        = s1.future_messages_cache e) ∧
    (s.process_message env sender msg).1.honey_badger = s1.honey_badger := by
  unfold HbbftState.process_message
  rw [hskip]
  dsimp only []
  rw [hhb]
  dsimp only []
  rw [if_pos hfut]
  refine ⟨rfl, by simp, ?_, rfl⟩
  intro e he
  simp [he]

theorem process_message_future_epoch_witness :
    (HbbftState.process_message envC sC 3 msgC).2 = none ∧
    (HbbftState.process_message envC sC 3 msgC).1.future_messages_cache
        msgC.epoch = [(3, msgC)] := by
  have h := process_message_future_epoch envC sC 3 msgC
    (sC.skip_to_current_epoch envC).1 hbC rfl rfl (by decide)
  refine ⟨h.1, ?_⟩
  rw [h.2.1]
  rfl

theorem handle_all_spec (msgs : List (NodeId × HbMessage)) (hb : HoneyBadger) :
    hb.handle_all msgs
      = ({ hb with received := hb.received ++ msgs }, msgs.map (fun _ => ())) := by
  induction msgs generalizing hb with
  | nil => simp [HoneyBadger.handle_all]
  | cons a l ih =>
    cases a with
    | mk sender m => simp [HoneyBadger.handle_all, HoneyBadger.handle, ih]

/-- C6 counterexample: with the parent-block POSDAO epoch matching the
stored epoch but no cached message for the instance's current epoch 5,
replay_cached_messages returns without feeding or pruning anything, so the
cache keeps its entry at the bygone epoch 3 ≤ 5. -/
theorem replay_cached_messages_counterexample :
    sD.honey_badger = some hbD ∧
    envD.posdaoEpoch (hbD.epoch - 1) = some sD.current_posdao_epoch ∧
    (HbbftState.replay_cached_messages envD sD).2 = none ∧
    (HbbftState.replay_cached_messages envD sD).1.future_messages_cache 3
      = [(7, { epoch := 3, payload := 0 })] ∧
    3 ≤ hbD.epoch := by
  exact ⟨rfl, rfl, rfl, rfl, by decide⟩

/-- C6 amended: when the parent block of the instance's epoch reports the
stored POSDAO epoch and a nonempty cache entry exists for the instance's
current epoch (with network info present), replay_cached_messages feeds
every cached message for that epoch into the instance in insertion order
and afterwards the cache holds no entry for any epoch at most the
instance's epoch; when the entry is empty, state and cache are left
unchanged. -/
theorem replay_cached_messages_amended (env : Env) (s : HbbftState)
    (hb : HoneyBadger) (ni : NetworkInfo)
    (hhb : s.honey_badger = some hb)
    (hne : hb.epoch ≠ 0)
    (hpe : env.posdaoEpoch (hb.epoch - 1) = some s.current_posdao_epoch)
    (hni : s.network_info = some ni) :
    (s.future_messages_cache hb.epoch = [] →
      s.replay_cached_messages env = (s, none)) ∧
    (s.future_messages_cache hb.epoch ≠ [] →
      ((s.replay_cached_messages env).1.honey_badger
          = some { hb with
              received := hb.received ++ s.future_messages_cache hb.epoch } ∧
        (∀ e, e ≤ hb.epoch →
          (s.replay_cached_messages env).1.future_messages_cache e = []) ∧
        (∀ e, hb.epoch < e →
          (s.replay_cached_messages env).1.future_messages_cache e
            = s.future_messages_cache e) ∧
        (s.replay_cached_messages env).2
          = some ((s.future_messages_cache hb.epoch).map (fun _ => ()), ni))) := by
  constructor
  · intro h0
    simp [HbbftState.replay_cached_messages, hhb, hne, hpe, h0]
  · intro hne2
    have hne3 : (s.future_messages_cache hb.epoch).isEmpty = false := by
      cases hq : s.future_messages_cache hb.epoch with
      | nil => exact absurd hq hne2
      | cons a l => rfl
    refine ⟨?_, ?_, ?_, ?_⟩
    · simp [HbbftState.replay_cached_messages, hhb, hne, hpe, hni, hne3,
        handle_all_spec]
    · intro e he
      simp [HbbftState.replay_cached_messages, hhb, hne, hpe, hni, hne3,
        handle_all_spec]
      omega
    · intro e he
      simp [HbbftState.replay_cached_messages, hhb, hne, hpe, hni, hne3,
        handle_all_spec]
      omega
    · simp [HbbftState.replay_cached_messages, hhb, hne, hpe, hni, hne3,
        handle_all_spec]

theorem replay_cached_messages_amended_witness :
    (HbbftState.replay_cached_messages envD sE).1.future_messages_cache 3
      = [] ∧
    (HbbftState.replay_cached_messages envD sE).1.honey_badger
      = some { hbD with
          received := hbD.received ++ sE.future_messages_cache hbD.epoch } := by
  have h := replay_cached_messages_amended envD sE hbD
    { our_id := 0, num_faulty := 1 } rfl (by decide) rfl rfl
  have h2 := h.2 (by decide)
  exact ⟨h2.2.1 3 (by decide), h2.1⟩

theorem update_honeybadger_epoch_cases (env : Env) (s : HbbftState) (b : Nat)
    (f : Bool) :
    (s.update_honeybadger env b f).1.current_posdao_epoch
        = s.current_posdao_epoch ∨
    env.posdaoEpoch b
        = some (s.update_honeybadger env b f).1.current_posdao_epoch := by
  unfold HbbftState.update_honeybadger
  split
  · exact Or.inl rfl
  · rename_i target heq
    split
    · exact Or.inl rfl
    · split
      · exact Or.inl rfl
      · split
        · exact Or.inl rfl
        · split
          · exact Or.inl rfl
          · dsimp only []
            split
            · exact Or.inl rfl
            · split
              · exact Or.inr heq
              · split
                · exact Or.inr heq
                · exact Or.inr heq

theorem update_honeybadger_mono (env : Env) (s : HbbftState) (b : Nat) (f : Bool)
    (hmono : ∀ t, env.posdaoEpoch b = some t → s.current_posdao_epoch ≤ t) :
    s.current_posdao_epoch
      ≤ (s.update_honeybadger env b f).1.current_posdao_epoch := by
  rcases update_honeybadger_epoch_cases env s b f with h | h
  · rw [h]
  · exact hmono _ h

theorem skip_to_current_epoch_state_epoch (env : Env) (s : HbbftState) :
    (s.skip_to_current_epoch env).1.current_posdao_epoch
      = (s.update_honeybadger env env.latestBlock false).1.current_posdao_epoch := by
  unfold HbbftState.skip_to_current_epoch
  dsimp only []
  split <;> rfl

theorem process_message_state_epoch (env : Env) (s : HbbftState)
    (sender : NodeId) (msg : HbMessage) :
    (s.process_message env sender msg).1.current_posdao_epoch
      = (s.skip_to_current_epoch env).1.current_posdao_epoch := by
  unfold HbbftState.process_message
  split
  · rename_i s1 heq
    rw [heq]
  · rename_i s1 u heq
    rw [heq]
    split
    · rfl
    · split
      · rfl
      · split
        · rfl
        · rfl

theorem verify_seal_state (env : Env) (s : HbbftState) (signature : Bytes)
    (header : Header) :
    (s.verify_seal env signature header).1 = (s.skip_to_current_epoch env).1 := by
  unfold HbbftState.verify_seal
  dsimp only []
  split
  · rfl
  · split
    · split
      · rfl
      · split
        · rfl
        · split
          · rfl
          · split
            · rfl
            · rfl
    · split <;> rfl

theorem try_send_contribution_state_epoch (env : Env) (s : HbbftState) :
    (s.try_send_contribution env).1.current_posdao_epoch
      = (s.skip_to_current_epoch env).1.current_posdao_epoch := by
  unfold HbbftState.try_send_contribution
  split
  · rename_i s1 heq
    rw [heq]
  · rename_i s1 u heq
    rw [heq]
    split
    · rfl
    · split
      · rfl
      · split
        · rfl
        · split
          · rfl
          · split
            · rfl
            · rfl

theorem replay_cached_messages_state_epoch (env : Env) (s : HbbftState) :
    (s.replay_cached_messages env).1.current_posdao_epoch
      = s.current_posdao_epoch := by
  unfold HbbftState.replay_cached_messages
  repeat' (first | rfl | split | dsimp only [])

/-- C7: under the assumption that the staking contract reports only epochs
at least as large as the stored one, the stored current_posdao_epoch never
decreases across update_honeybadger or any operation calling it (nor
across replay_cached_messages, which never touches it). -/
theorem current_posdao_epoch_monotone (env : Env) (s : HbbftState)
    (hmono : ∀ b t, env.posdaoEpoch b = some t → s.current_posdao_epoch ≤ t) :
    (∀ b f, s.current_posdao_epoch
        ≤ (s.update_honeybadger env b f).1.current_posdao_epoch) ∧
    s.current_posdao_epoch
      ≤ (s.skip_to_current_epoch env).1.current_posdao_epoch ∧
    (∀ sender msg, s.current_posdao_epoch
        ≤ (s.process_message env sender msg).1.current_posdao_epoch) ∧
    (∀ signature header, s.current_posdao_epoch
        ≤ (s.verify_seal env signature header).1.current_posdao_epoch) ∧
    s.current_posdao_epoch
      ≤ (s.try_send_contribution env).1.current_posdao_epoch ∧
    s.current_posdao_epoch
      ≤ (s.contribute_if_contribution_threshold_reached env).1.current_posdao_epoch ∧
    s.current_posdao_epoch
      ≤ (s.replay_cached_messages env).1.current_posdao_epoch := by
  have hskip : s.current_posdao_epoch
      ≤ (s.skip_to_current_epoch env).1.current_posdao_epoch := by
    rw [skip_to_current_epoch_state_epoch]
    exact update_honeybadger_mono env s env.latestBlock false (hmono env.latestBlock)
  have htry : s.current_posdao_epoch
      ≤ (s.try_send_contribution env).1.current_posdao_epoch := by
    rw [try_send_contribution_state_epoch]
    exact hskip
  refine ⟨?_, hskip, ?_, ?_, htry, ?_, ?_⟩
  · intro b f
    exact update_honeybadger_mono env s b f (hmono b)
  · intro sender msg
    rw [process_message_state_epoch]
    exact hskip
  · intro signature header
    rw [verify_seal_state]
    exact hskip
  · unfold HbbftState.contribute_if_contribution_threshold_reached
    split
    · split
      · exact htry
      · exact Nat.le_refl _
    · exact Nat.le_refl _
  · rw [replay_cached_messages_state_epoch]

theorem current_posdao_epoch_monotone_witness :
    sF.current_posdao_epoch
      ≤ (sF.update_honeybadger envF 0 false).1.current_posdao_epoch := by
  have h := current_posdao_epoch_monotone envF sF
    (by intro b t ht
        simp only [envF] at ht
        simp only [sF]
        injection ht with h2
        omega)
  exact h.1 0 false

/-- C1: once synchronised to the current epoch, verify_seal checks the
signature over the header's bare hash against the stored public master key
when the header's parent-block POSDAO epoch equals the stored epoch, and
against the public key of the key set reconstructed from key-history at
that epoch's start block when it differs, independent of local liveness
history. -/
theorem verify_seal_epoch_dispatch (env : Env) (s : HbbftState)
    (signature : Bytes) (header : Header) (target : Nat)
    (htarget : env.posdaoEpoch (header.number - 1) = some target) :
    (∀ key, (s.skip_to_current_epoch env).1.current_posdao_epoch = target →
      (s.skip_to_current_epoch env).1.public_master_key = some key →
      (s.verify_seal env signature header).2
        = env.verify key signature header.bare_hash) ∧
    (∀ start skg pks sks,
      (s.skip_to_current_epoch env).1.current_posdao_epoch ≠ target →
      env.posdaoEpochStart (header.number - 1) = some start →
      env.synckeygen start = some skg →
      skg.is_ready = true →
      skg.generate = some (pks, sks) →
      (s.verify_seal env signature header).2
        = env.verify pks.public_key signature header.bare_hash) := by
  constructor
  · intro key heq hkey
    unfold HbbftState.verify_seal
    try dsimp only []
    rw [htarget]
    try dsimp only []
    rw [if_neg (fun h => h heq), hkey]
  · intro start skg pks sks hne hstart hskg hready hgen
    unfold HbbftState.verify_seal
    try dsimp only []
    rw [htarget]
    try dsimp only []
    rw [if_pos hne, hstart]
    try dsimp only []
    rw [hskg]
    simp [hready, hgen]

theorem verify_seal_epoch_dispatch_witness :
    (HbbftState.verify_seal envA sA [] headerEqA).2 = false ∧
    (HbbftState.verify_seal envA sA [] headerNeA).2 = true := by
  have h1 := (verify_seal_epoch_dispatch envA sA [] headerEqA 0 rfl).1 7 rfl rfl
  have h2 := (verify_seal_epoch_dispatch envA sA [] headerNeA 2 rfl).2
    1
    { is_ready := true, generate := some ({ public_key := 9 }, none),
      netinfo := none }
    { public_key := 9 } none (by decide) rfl rfl rfl rfl
  exact ⟨by rw [h1]; rfl, by rw [h2]; rfl⟩

/-- C2 amended: verify_block_family accepts a header exactly when its
number is at most latest+1, it carries exactly one seal field, the field
RLP-decodes, and the decoded signature passes the seal verifier; number
and seal-count violations and verifier rejection yield InvalidSeal, while
an undecodable seal field yields the propagated decoder error instead. -/
theorem verify_block_family_amended (env : Env) (s : HbbftState)
    (header : Header) :
    (env.latestBlock + 1 < header.number →
      (HoneyBadgerBFT.verify_block_family env s header).2
        = Except.error FamilyError.invalidSeal) ∧
    (¬ env.latestBlock + 1 < header.number → header.seals.length ≠ 1 →
      (HoneyBadgerBFT.verify_block_family env s header).2
        = Except.error FamilyError.invalidSeal) ∧
    (∀ field, ¬ env.latestBlock + 1 < header.number →
      header.seals = [field] → rlp_decode_seal field = none →
      (HoneyBadgerBFT.verify_block_family env s header).2
        = Except.error FamilyError.decoderError) ∧
    (∀ field sig, ¬ env.latestBlock + 1 < header.number →
      header.seals = [field] → rlp_decode_seal field = some sig →
      (((s.verify_seal env sig header).2 = true →
        (HoneyBadgerBFT.verify_block_family env s header).2 = Except.ok ()) ∧
       ((s.verify_seal env sig header).2 = false →
        (HoneyBadgerBFT.verify_block_family env s header).2
          = Except.error FamilyError.invalidSeal))) := by
  refine ⟨?_, ?_, ?_, ?_⟩
  · intro hlt
    unfold HoneyBadgerBFT.verify_block_family
    rw [if_pos hlt]
  · intro hlt hlen
    unfold HoneyBadgerBFT.verify_block_family
    rw [if_neg hlt, if_pos hlen]
  · intro field hlt hseals hdec
    unfold HoneyBadgerBFT.verify_block_family
    rw [if_neg hlt, if_neg (by rw [hseals]; simp), hseals]
    simp only [List.head?_cons]
    rw [hdec]
  · intro field sig hlt hseals hdec
    constructor
    · intro hv
      unfold HoneyBadgerBFT.verify_block_family
      rw [if_neg hlt, if_neg (by rw [hseals]; simp), hseals]
      simp only [List.head?_cons]
      rw [hdec]
      try dsimp only []
      rw [show s.verify_seal env sig header
        = ((s.verify_seal env sig header).1, true) from by rw [← hv]]
    · intro hv
      unfold HoneyBadgerBFT.verify_block_family
      rw [if_neg hlt, if_neg (by rw [hseals]; simp), hseals]
      simp only [List.head?_cons]
      rw [hdec]
      try dsimp only []
      rw [show s.verify_seal env sig header
        = ((s.verify_seal env sig header).1, false) from by rw [← hv]]

/-- C2 counterexample: a header at an importable height carrying exactly
one seal field that does not RLP-decode makes verify_block_family return
the propagated decoder error rather than InvalidSeal. -/
theorem verify_block_family_counterexample :
    headerDecodeBad.seals.length = 1 ∧
    rlp_decode_seal [] = none ∧
    (HoneyBadgerBFT.verify_block_family envB sB headerDecodeBad).2
      = Except.error FamilyError.decoderError ∧
    FamilyError.decoderError ≠ FamilyError.invalidSeal :=
  ⟨rfl, rfl, rfl, by decide⟩

theorem verify_block_family_amended_witness :
    (HoneyBadgerBFT.verify_block_family envB sB
        { number := 10, bare_hash := 0, seals := [] }).2
      = Except.error FamilyError.invalidSeal ∧
    (HoneyBadgerBFT.verify_block_family envB sB headerGoodSeal).2
      = Except.ok () := by
  have h1 := (verify_block_family_amended envB sB
    { number := 10, bare_hash := 0, seals := [] }).1 (by decide)
  have h2 := ((verify_block_family_amended envB sB headerGoodSeal).2.2.2
    (184 :: 96 :: List.replicate 96 0) (List.replicate 96 0)
    (by decide) rfl rfl).1 rfl
  exact ⟨h1, h2⟩
